import Mathlib

/-!
Shallow embedding of three source files of the United-Perception repository:

* `eod/tasks/seg/models/decoder/sfnet.py` — the SFNet segmentation decoder
  (`AlignedModule`, `PSPModule`, `AlignHead`);
* `up/utils/model/initializer.py` — weight/bias initializers
  (`init_bias_focal`, `initialize_from_cfg`);
* `up/commands/to_adela.py` — the `to_adela` subcommand (`add_subparser`, `main`).

Tensor programs are embedded at two levels: a symbolic expression level
(`TExpr`) recording the dataflow of `AlignedModule.forward`, a shape level
(`Shape` with per-operator output-shape functions following the PyTorch
shape rules), and a pointwise rational-valued level for the sampling grid
of `flow_warp`.  Stateful Python code (in-place bias mutation, dict `pop`,
`raise`) is embedded by explicit state passing, with errors returned
alongside the state at the moment of the raise.
-/

namespace UP

/-! ## Conv2d output-size rule (PyTorch):
`out = floor((n + 2*padding - dilation*(kernel-1) - 1) / stride) + 1` -/

def convOut (n k p d s : Nat) : Nat :=
  (n + 2 * p - d * (k - 1) - 1) / s + 1

/-! ## Symbolic dataflow of `AlignedModule.forward` (sfnet.py lines 22-47).

Constructors name the layers and tensor ops that appear in the source:
`downL`/`downH` are the 1x1 convolutions `self.down_l`/`self.down_h`,
`flowMake` is `self.flow_make`, `upsample h w` is
`F.upsample(-, size=(h,w), mode="bilinear", align_corners=True)`,
`cat2` is `torch.cat([-, -], 1)`, and `gridSample a (gridPlusFlow h w f)`
is `F.grid_sample(a, grid)` where `grid` is the normalized base grid of
spatial size `(h, w)` plus `f.permute(0,2,3,1) / norm` built in
`flow_warp`. -/

inductive TExpr where
  | inputLow : TExpr
  | inputH : TExpr
  | downL : TExpr → TExpr
  | downH : TExpr → TExpr
  | flowMake : TExpr → TExpr
  | upsample : Nat → Nat → TExpr → TExpr
  | cat2 : TExpr → TExpr → TExpr
  | gridPlusFlow : Nat → Nat → TExpr → TExpr
  | gridSample : TExpr → TExpr → TExpr
deriving DecidableEq, Repr

/-- `AlignedModule.flow_warp(input, flow, size)` (sfnet.py lines 35-47):
builds the sampling grid from `flow` at spatial size `size` and
grid-samples `input` with it. -/
def flow_warp (input flow : TExpr) (outH outW : Nat) : TExpr :=
  .gridSample input (.gridPlusFlow outH outW flow)

/-- `AlignedModule.forward(x)` (sfnet.py lines 22-33), with
`low_feature` of spatial size `(h, w)`:

    low_feature, h_feature = x
    h_feature_orign = h_feature
    h, w = low_feature.size()[2:]
    size = (h, w)
    low_feature = self.down_l(low_feature)
    h_feature = self.down_h(h_feature)
    h_feature = F.upsample(h_feature, size=size, ...)
    flow = self.flow_make(torch.cat([h_feature, low_feature], 1))
    h_feature = self.flow_warp(h_feature_orign, flow, size=size)
    return h_feature
-/
def alignedForward (h w : Nat) : TExpr :=
  let h_feature_orign := TExpr.inputH
  let low_feature := TExpr.downL .inputLow
  let h_feature := TExpr.downH .inputH
  let h_feature2 := TExpr.upsample h w h_feature
  let flow := TExpr.flowMake (.cat2 h_feature2 low_feature)
  flow_warp h_feature_orign flow h w

/-- The flow expression fed to `flow_warp` inside `alignedForward`. -/
def alignedFlow (h w : Nat) : TExpr :=
  .flowMake (.cat2 (.upsample h w (.downH .inputH)) (.downL .inputLow))

/-- The tensor that `grid_sample` samples from, when the expression is a
grid-sample warp. -/
def warpOperand : TExpr → Option TExpr
  | .gridSample input _ => some input
  | _ => none

/-- The flow used by the warp, when the expression is a grid-sample warp
whose grid comes from `flow_warp`. -/
def warpFlow : TExpr → Option TExpr
  | .gridSample _ (.gridPlusFlow _ _ f) => some f
  | _ => none

/-- Spatial size `(height, width)` of a symbolic expression, given the
kernel size `k` of `flow_make` (constructor argument `kernel_size`,
`padding=1`), the spatial size of `low_feature` and of `h_feature`.
`down_l`/`down_h` are 1x1 convs with no padding; `cat` requires equal
spatial sizes; the grid built in `flow_warp` broadcasts the base grid of
size `(outH, outW)` with the permuted flow, which requires equal sizes
(sizes of 1 broadcast, but `flow_make` output is never size-1 here unless
equal). -/
def spatial (k : Nat) (lowSz hSz : Nat × Nat) : TExpr → Option (Nat × Nat)
  | .inputLow => some lowSz
  | .inputH => some hSz
  | .downL e => (spatial k lowSz hSz e).map
      (fun s => (convOut s.1 1 0 1 1, convOut s.2 1 0 1 1))
  | .downH e => (spatial k lowSz hSz e).map
      (fun s => (convOut s.1 1 0 1 1, convOut s.2 1 0 1 1))
  | .flowMake e => (spatial k lowSz hSz e).map
      (fun s => (convOut s.1 k 1 1 1, convOut s.2 k 1 1 1))
  | .upsample h w e => (spatial k lowSz hSz e).map (fun _ => (h, w))
  | .cat2 a b => do
      let sa ← spatial k lowSz hSz a
      let sb ← spatial k lowSz hSz b
      if sa = sb then some sa else none
  | .gridPlusFlow h w f => do
      let sf ← spatial k lowSz hSz f
      if sf = (h, w) then some (h, w) else none
  | .gridSample input grid => do
      let _ ← spatial k lowSz hSz input
      let sg ← spatial k lowSz hSz grid
      some sg

/-! ## Shape semantics for `PSPModule` (sfnet.py lines 50-79).

A tensor shape `(n, c, h, w)` and the PyTorch output-shape rule of every
operator `PSPModule` uses. -/

structure Shape where
  n : Nat
  c : Nat
  h : Nat
  w : Nat
deriving DecidableEq, Repr

/-- `nn.AdaptiveAvgPool2d(output_size=(outH, outW))`. -/
def adaptiveAvgPool2dShape (outH outW : Nat) (s : Shape) : Shape :=
  { s with h := outH, w := outW }

/-- `nn.Conv2d(cin, cout, kernel_size=k, padding=p, dilation=d, stride=st)`:
requires the input channel count to match `cin`. -/
def conv2dShape (cin cout k p d st : Nat) (s : Shape) : Option Shape :=
  if s.c = cin then
    some { s with c := cout, h := convOut s.h k p d st,
                  w := convOut s.w k p d st }
  else none

/-- `build_norm_layer(features, normalize)`: a 2d norm layer over
`features` channels, shape preserving. -/
def normLayerShape (features : Nat) (s : Shape) : Option Shape :=
  if s.c = features then some s else none

/-- `nn.ReLU()` is shape preserving. -/
def reluShape (s : Shape) : Shape := s

/-- `nn.Dropout2d(0.1)` is shape preserving. -/
def dropout2dShape (s : Shape) : Shape := s

/-- `F.upsample(-, size=(h, w), mode="bilinear", align_corners=True)`. -/
def upsampleShape (h w : Nat) (s : Shape) : Shape := { s with h := h, w := w }

/-- `torch.cat(ss, 1)`: every tensor must agree on the batch and spatial
dimensions; the channel dimension is the sum of the channel counts. -/
def catChannelShapes : List Shape → Option Shape
  | [] => none
  | s0 :: rest =>
    if rest.all (fun t => t.n == s0.n && t.h == s0.h && t.w == s0.w) then
      some ⟨s0.n, s0.c + (rest.map Shape.c).sum, s0.h, s0.w⟩
    else none

/-- `PSPModule._make_stage` (sfnet.py lines 68-72):
`nn.Sequential(AdaptiveAvgPool2d((size, size)),
Conv2d(inplanes, out_planes, kernel_size=1, bias=False), bn)`. -/
def pspStageShape (inplanes out_planes size : Nat) (s : Shape) : Option Shape :=
  (conv2dShape inplanes out_planes 1 0 1 1
      (adaptiveAvgPool2dShape size size s)).bind
    (normLayerShape out_planes)

/-- The list `priors` of `PSPModule.forward` (sfnet.py lines 76-77):
each stage output upsampled back to `(h, w)`, then the input itself. -/
def pspPriorShapes (inplanes out_planes : Nat) (sizes : List Nat)
    (s : Shape) : Option (List Shape) :=
  (sizes.mapM (fun size => (pspStageShape inplanes out_planes size s).map
      (upsampleShape s.h s.w))).map (· ++ [s])

/-- In-channel count of the bottleneck convolution as constructed
(sfnet.py line 62): `inplanes + len(sizes) * out_planes`. -/
def pspBottleneckCin (inplanes out_planes nsizes : Nat) : Nat :=
  inplanes + nsizes * out_planes

/-- `self.bottleneck` (sfnet.py lines 61-66):
`nn.Sequential(Conv2d(inplanes + len(sizes) * out_planes, out_planes,
kernel_size=1, padding=1, dilation=1, bias=False), bn, ReLU,
Dropout2d(0.1))`. -/
def pspBottleneckShape (inplanes out_planes nsizes : Nat) (s : Shape) :
    Option Shape :=
  ((conv2dShape (pspBottleneckCin inplanes out_planes nsizes) out_planes
      1 1 1 1 s).bind (normLayerShape out_planes)).map
    (fun t => dropout2dShape (reluShape t))

/-- `PSPModule.forward(feats)` (sfnet.py lines 74-79): build the priors,
concatenate along the channel dimension, apply the bottleneck. -/
def pspForwardShape (inplanes out_planes : Nat) (sizes : List Nat)
    (s : Shape) : Option Shape :=
  (pspPriorShapes inplanes out_planes sizes s).bind fun priors =>
    (catChannelShapes priors).bind fun cat =>
      pspBottleneckShape inplanes out_planes sizes.length cat

/-! ## Symbolic dataflow of `AlignHead.forward` (sfnet.py lines 145-170).

`convOutIdx i` is `conv_out[i]` (the input pyramid, finest first),
`ppm` is `self.ppm`, `fpnIn i` is `self.fpn_in[i]`, `alignOut i low f` is
`self.fpn_out_align[i]([low, f])`, `fpnOut i` is `self.fpn_out[i]`,
`interp` is `nn.functional.interpolate(-, output_size, mode="bilinear",
align_corners=True)`, `catChannels` is `torch.cat(-, 1)` and `convLast`
is `self.conv_last`. -/

inductive HExpr where
  | convOutIdx : Nat → HExpr
  | ppm : HExpr → HExpr
  | fpnIn : Nat → HExpr → HExpr
  | alignOut : Nat → HExpr → HExpr → HExpr
  | add : HExpr → HExpr → HExpr
  | fpnOut : Nat → HExpr → HExpr
  | interp : HExpr → HExpr
  | catChannels : List HExpr → HExpr
  | convLast : HExpr → HExpr

/-- The loop `for i in reversed(range(len(conv_out) - 1))` of
`AlignHead.forward` (sfnet.py lines 150-155), iterating over the index
list `is`, threading `f` and appending to `fpn_feature_list`:

    conv_x = conv_out[i]
    conv_x = self.fpn_in[i](conv_x)  # lateral branch
    f = self.fpn_out_align[i]([conv_x, f])
    f = conv_x + f
    fpn_feature_list.append(self.fpn_out[i](f))
-/
def alignHeadLoop : List Nat → HExpr → List HExpr → HExpr × List HExpr
  | [], f, acc => (f, acc)
  | i :: rest, f, acc =>
    let conv_x := HExpr.fpnIn i (.convOutIdx i)
    let f1 := HExpr.alignOut i conv_x f
    let f2 := HExpr.add conv_x f1
    alignHeadLoop rest f2 (acc ++ [.fpnOut i f2])

/-- `fpn_feature_list` of `AlignHead.forward` just before the `reverse()`
call, for `n = len(conv_out)`: it starts as `[psp_out]` with
`psp_out = self.ppm(conv_out[-1])` and the loop runs over
`reversed(range(n - 1))`. -/
def alignHeadFpnList (n : Nat) : List HExpr :=
  let psp_out := HExpr.ppm (.convOutIdx (n - 1))
  (alignHeadLoop ((List.range (n - 1)).reverse) psp_out [psp_out]).2

/-- `AlignHead.forward(conv_out)` for `n = len(conv_out)` levels
(sfnet.py lines 145-170): after the loop, `fpn_feature_list.reverse()`,
then `fusion_list = [fpn_feature_list[0]]` followed by bilinear
interpolation of every other level to `fpn_feature_list[0]` size,
`torch.cat(fusion_list, 1)` and `self.conv_last`. -/
def alignHeadForward (n : Nat) : HExpr :=
  match (alignHeadFpnList n).reverse with
  | [] => .convLast (.catChannels [])
  | f0 :: rest => .convLast (.catChannels (f0 :: rest.map HExpr.interp))

/-- The pyramid level an expression of the fusion pipeline carries. -/
def HExpr.levelIdx : HExpr → Nat
  | .convOutIdx i => i
  | .ppm e => e.levelIdx
  | .fpnOut i _ => i
  | .interp e => e.levelIdx
  | _ => 0

/-- The list of tensors concatenated by the final `torch.cat`. -/
def catArgs : HExpr → List HExpr
  | .convLast (.catChannels es) => es
  | _ => []

/-! ## Pointwise model of the sampling grid built in `flow_warp`
(sfnet.py lines 39-44), over ℚ.

A fixed batch element is considered; `flow c i j` is `flow[n][c][i][j]`,
so `flow.permute(0, 2, 3, 1)` read at index `(n, i, j, c)` is `flow c i j`. -/

/-- `torch.linspace(a, b, steps)` at index `i` (`steps = 1` gives `a`). -/
def linspace (a b : ℚ) (steps i : Nat) : ℚ :=
  if steps ≤ 1 then a else a + i * (b - a) / (steps - 1 : Nat)

/-- `w = torch.linspace(-1.0, 1.0, out_h).view(-1, 1).repeat(1, out_w)`:
entry `(i, j)` is the `i`-th linspace value. -/
def wGrid (outH : Nat) (i _j : Nat) : ℚ := linspace (-1) 1 outH i

/-- `h = torch.linspace(-1.0, 1.0, out_w).repeat(out_h, 1)`:
entry `(i, j)` is the `j`-th linspace value. -/
def hGrid (outW : Nat) (_i j : Nat) : ℚ := linspace (-1) 1 outW j

/-- `grid = torch.cat((h.unsqueeze(2), w.unsqueeze(2)), 2)`:
channel 0 is `h` (the x coordinate), channel 1 is `w` (the y coordinate). -/
def baseGrid (outH outW : Nat) (i j c : Nat) : ℚ :=
  if c = 0 then hGrid outW i j else wGrid outH i j

/-- `norm = torch.tensor([[[[out_w, out_h]]]])`, broadcast over the last
dimension: channel 0 is `out_w`, channel 1 is `out_h`. -/
def normVec (outH outW : Nat) (c : Nat) : ℚ :=
  if c = 0 then (outW : ℚ) else (outH : ℚ)

/-- `grid = grid + flow.permute(0, 2, 3, 1) / norm`: the grid actually
passed to `F.grid_sample`. -/
def warpGrid (outH outW : Nat) (flow : Nat → Nat → Nat → ℚ) (i j c : Nat) : ℚ :=
  baseGrid outH outW i j c + flow c i j / normVec outH outW c

/-- From the words of the spec: the x component of the sampling grid is the
normalized base grid (linspace from -1.0 to 1.0 along the width axis)
plus the x component of the channels-last flow divided by `out_w`. -/
def specWarpGridX (outW : Nat) (flow : Nat → Nat → Nat → ℚ) (i j : Nat) : ℚ :=
  linspace (-1) 1 outW j + flow 0 i j / (outW : ℚ)

/-- From the words of the spec: the y component of the sampling grid is the
normalized base grid (linspace from -1.0 to 1.0 along the height axis)
plus the y component of the channels-last flow divided by `out_h`. -/
def specWarpGridY (outH : Nat) (flow : Nat → Nat → Nat → ℚ) (i j : Nat) : ℚ :=
  linspace (-1) 1 outH i + flow 1 i j / (outH : ℚ)

/-! ## Theorems about `AlignedModule` -/

/-- Claim C1, counterexample: at `low_feature` spatial size (2, 3), the
value returned by `AlignedModule.forward` is NOT the grid-sample warp
applied to the bilinearly upsampled (1x1-convolved) coarse feature: the
warp is applied to `h_feature_orign`, the untouched coarse input. -/
theorem alignedForward_warps_original_not_upsampled :
    warpOperand (alignedForward 2 3) = some TExpr.inputH ∧
    alignedForward 2 3 ≠
      flow_warp (TExpr.upsample 2 3 (.downH .inputH)) (alignedFlow 2 3) 2 3 := by
  decide

/-- Claim C1 (amended): in `AlignedModule.forward`, the flow field is
computed by `flow_make` from the channel-wise concatenation of the
1x1-convolved coarse feature bilinearly upsampled to the fine
(`low_feature`) spatial resolution and the 1x1-convolved fine feature,
and the grid-sample warp is then applied to the ORIGINAL coarse feature
`h_feature_orign` (not the upsampled one), with the sampling grid at the
fine resolution. -/
theorem alignedForward_structure (h w : Nat) :
    alignedForward h w = flow_warp TExpr.inputH (alignedFlow h w) h w ∧
    alignedFlow h w =
      .flowMake (.cat2 (.upsample h w (.downH .inputH)) (.downL .inputLow)) ∧
    warpOperand (alignedForward h w) = some TExpr.inputH ∧
    warpFlow (alignedForward h w) = some (alignedFlow h w) := by
  refine ⟨rfl, rfl, rfl, rfl⟩

/-- A 1x1 convolution with no padding preserves a positive spatial size. -/
theorem convOut_one (n : Nat) (h : 1 ≤ n) : convOut n 1 0 1 1 = n := by
  simp only [convOut]
  omega

/-- A 3x3 convolution with padding 1 preserves a positive spatial size. -/
theorem convOut_three (n : Nat) (h : 1 ≤ n) : convOut n 3 1 1 1 = n := by
  simp only [convOut]
  omega

/-- Claim C2, counterexample: with constructor argument `kernel_size = 1`
(`flow_make = nn.Conv2d(outplane * 2, 2, kernel_size=1, padding=1)`),
`low_feature` of spatial size (2, 2) and `h_feature` of spatial size
(4, 4), the flow tensor passed to `flow_warp` has spatial size (4, 4),
not the (2, 2) of `low_feature`. -/
theorem alignedFlow_spatial_kernel_one :
    spatial 1 (2, 2) (4, 4) (alignedFlow 2 2) = some (4, 4) ∧
    (4, 4) ≠ (2, 2) := by
  decide

/-- Claim C2 (amended): for `kernel_size = 3` (the constructor default,
and the only value `AlignHead` uses), the flow tensor passed to
`flow_warp` has spatial size equal to that of `low_feature`, the target
finer resolution, for every positive `low_feature` spatial size and every
`h_feature` spatial size: `flow_make` has `padding=1`, so only
`kernel_size = 3` preserves the spatial size. -/
theorem alignedFlow_spatial (lowH lowW hH hW : Nat)
    (hl : 1 ≤ lowH) (hw : 1 ≤ lowW) :
    spatial 3 (lowH, lowW) (hH, hW) (alignedFlow lowH lowW) =
      some (lowH, lowW) := by
  simp [alignedFlow, spatial, convOut_one, convOut_three, hl, hw]

/-- Witness for `alignedFlow_spatial` at `low_feature` size (5, 7),
`h_feature` size (3, 4). -/
theorem alignedFlow_spatial_witness :
    spatial 3 (5, 7) (3, 4) (alignedFlow 5 7) = some (5, 7) :=
  alignedFlow_spatial 5 7 3 4 (by decide) (by decide)

/-- Claim C4: the sampling grid passed to `grid_sample` in
`AlignedModule.flow_warp` equals, at every pixel `(i, j)`, the normalized
base grid (linspace from -1.0 to 1.0 in each axis, x-coordinate first)
plus the flow permuted to channels-last and divided element-wise by the
spatial extent: `out_w` for the x component (channel 0), `out_h` for the
y component (channel 1). -/
theorem warpGrid_eq_spec (outH outW : Nat) (flow : Nat → Nat → Nat → ℚ)
    (i j : Nat) :
    warpGrid outH outW flow i j 0 = specWarpGridX outW flow i j ∧
    warpGrid outH outW flow i j 1 = specWarpGridY outH flow i j := by
  simp [warpGrid, baseGrid, normVec, specWarpGridX, specWarpGridY,
    hGrid, wGrid]

/-! ## Theorems about `AlignHead` -/

/-- The loop only ever appends to `fpn_feature_list`. -/
theorem alignHeadLoop_acc (is : List Nat) (f : HExpr) (acc : List HExpr) :
    ∃ t, (alignHeadLoop is f acc).2 = acc ++ t := by
  induction is generalizing f acc with
  | nil => exact ⟨[], by simp [alignHeadLoop]⟩
  | cons i rest ih =>
    simp only [alignHeadLoop]
    obtain ⟨t, ht⟩ := ih (HExpr.add (.fpnIn i (.convOutIdx i))
      (.alignOut i (.fpnIn i (.convOutIdx i)) f))
      (acc ++ [.fpnOut i (.add (.fpnIn i (.convOutIdx i))
        (.alignOut i (.fpnIn i (.convOutIdx i)) f))])
    rw [ht]
    exact ⟨_, by rw [List.append_assoc]⟩

/-- The levels appended by the loop are exactly the iterated indices, in
iteration order. -/
theorem alignHeadLoop_levels (is : List Nat) (f : HExpr) (acc : List HExpr) :
    ((alignHeadLoop is f acc).2).map HExpr.levelIdx =
      acc.map HExpr.levelIdx ++ is := by
  induction is generalizing f acc with
  | nil => simp [alignHeadLoop]
  | cons i rest ih => simp [alignHeadLoop, ih, HExpr.levelIdx]

/-- `interp` keeps the level of its argument. -/
theorem levelIdx_interp (e : HExpr) : (HExpr.interp e).levelIdx = e.levelIdx :=
  rfl

/-- `fpn_feature_list` carries the levels in coarsest-to-finest order. -/
theorem alignHeadFpnList_levels (m : Nat) :
    (alignHeadFpnList (m + 1)).map HExpr.levelIdx =
      (List.range (m + 1)).reverse := by
  simp [alignHeadFpnList, alignHeadLoop_levels, HExpr.levelIdx,
    List.range_succ]

/-- Claim C3: for every non-empty `conv_out` of `n` levels ordered finest
to coarsest, `AlignHead.forward` starts with the pyramid pooling of
`conv_out[-1]`, the loop produces the remaining levels at indices
`n-2` down to `0` (so `fpn_feature_list` carries the levels in
coarsest-to-finest order `n-1, ..., 0`), and the list is reversed back to
finest-first order `0, ..., n-1` before the final interpolation, fusion
and concatenation. -/
theorem alignHead_order (n : Nat) (hn : 1 ≤ n) :
    (alignHeadFpnList n).head? = some (.ppm (.convOutIdx (n - 1))) ∧
    (alignHeadFpnList n).map HExpr.levelIdx = (List.range n).reverse ∧
    (catArgs (alignHeadForward n)).map HExpr.levelIdx = List.range n := by
  obtain ⟨m, rfl⟩ : ∃ m, n = m + 1 := ⟨n - 1, by omega⟩
  refine ⟨?_, alignHeadFpnList_levels m, ?_⟩
  · obtain ⟨t, ht⟩ := alignHeadLoop_acc ((List.range m).reverse)
      (.ppm (.convOutIdx m)) [.ppm (.convOutIdx m)]
    simp [alignHeadFpnList, ht]
  · have hrev : ((alignHeadFpnList (m + 1)).reverse).map HExpr.levelIdx =
        List.range (m + 1) := by
      rw [List.map_reverse, alignHeadFpnList_levels, List.reverse_reverse]
    cases hcase : (alignHeadFpnList (m + 1)).reverse with
    | nil => rw [hcase] at hrev; simp at hrev
    | cons f0 rest =>
      rw [hcase] at hrev
      simp only [alignHeadForward, hcase, catArgs, List.map_cons,
        List.map_map] at hrev ⊢
      rw [show HExpr.levelIdx ∘ HExpr.interp = HExpr.levelIdx from
        funext fun e => rfl]
      exact hrev

/-- Witness for `alignHead_order` at `n = 3` levels (the configuration
`SFSegDecoder` builds, `fpn_inplanes=[128, 256, 512]`). -/
theorem alignHead_order_witness :
    (alignHeadFpnList 3).head? = some (.ppm (.convOutIdx 2)) ∧
    (alignHeadFpnList 3).map HExpr.levelIdx = (List.range 3).reverse ∧
    (catArgs (alignHeadForward 3)).map HExpr.levelIdx = List.range 3 :=
  alignHead_order 3 (by decide)

/-! ## Theorems about `PSPModule` -/

/-- Each pooling stage, after upsampling, is an `out_planes`-channel
tensor back at the spatial size of the input, whatever the pooling size. -/
theorem pspStage_upsampled (inplanes out_planes size : Nat) (s : Shape)
    (hc : s.c = inplanes) :
    (pspStageShape inplanes out_planes size s).map (upsampleShape s.h s.w)
      = some ⟨s.n, out_planes, s.h, s.w⟩ := by
  simp [pspStageShape, adaptiveAvgPool2dShape, conv2dShape, hc,
    normLayerShape, upsampleShape]

/-- `mapM` over a list on which the function is constantly `some b`. -/
theorem mapM_const_some {α β : Type} (f : α → Option β) (b : β)
    (l : List α) (hf : ∀ a ∈ l, f a = some b) :
    l.mapM f = some (List.replicate l.length b) := by
  induction l with
  | nil => rfl
  | cons x xs ih =>
    rw [List.mapM_cons, hf x (by simp), ih (fun a ha => hf a (by simp [ha]))]
    rfl

/-- Channel-wise concatenation of `k` equal-shaped branches followed by
the input tensor: the channel counts add up, the other dimensions agree. -/
theorem catChannelShapes_psp (k cb : Nat) (s : Shape) :
    catChannelShapes (List.replicate k ⟨s.n, cb, s.h, s.w⟩ ++ [s]) =
      some ⟨s.n, k * cb + s.c, s.h, s.w⟩ := by
  cases k with
  | zero => simp [catChannelShapes]
  | succ m =>
    have hall : (List.replicate m (Shape.mk s.n cb s.h s.w) ++ [s]).all
        (fun t => t.n == s.n && t.h == s.h && t.w == s.w) = true := by
      simp only [List.all_eq_true]
      intro t ht
      rcases List.mem_append.1 ht with h1 | h2
      · rw [List.eq_of_mem_replicate h1]; simp
      · rw [List.mem_singleton.1 h2]; simp
    simp only [List.replicate_succ, List.cons_append, catChannelShapes, hall,
      if_true, List.map_append, List.map_replicate, List.sum_append,
      List.sum_replicate, smul_eq_mul, Option.some.injEq]
    simp only [List.map_cons, List.map_nil, List.sum_cons, List.sum_nil,
      Shape.mk.injEq]
    refine ⟨trivial, by ring, trivial, trivial⟩

/-- Claim C7: in `PSPModule.forward` on input of shape
`(n, inplanes, h, w)`, each of the `len(sizes)` average-pooling stages
produces an `out_planes`-channel branch bilinearly upsampled back to
`(h, w)`, and the channel-wise concatenation of the branches with the
original input has `inplanes + len(sizes) * out_planes` channels —
exactly the in-channel count the bottleneck convolution is constructed
with. -/
theorem psp_priors_channels (inplanes out_planes : Nat) (sizes : List Nat)
    (s : Shape) (hc : s.c = inplanes) :
    pspPriorShapes inplanes out_planes sizes s =
      some (List.replicate sizes.length ⟨s.n, out_planes, s.h, s.w⟩ ++ [s]) ∧
    catChannelShapes
        (List.replicate sizes.length ⟨s.n, out_planes, s.h, s.w⟩ ++ [s]) =
      some ⟨s.n, inplanes + sizes.length * out_planes, s.h, s.w⟩ ∧
    pspBottleneckCin inplanes out_planes sizes.length =
      inplanes + sizes.length * out_planes := by
  refine ⟨?_, ?_, rfl⟩
  · rw [pspPriorShapes, mapM_const_some _ ⟨s.n, out_planes, s.h, s.w⟩ sizes
      (fun size _ => pspStage_upsampled inplanes out_planes size s hc)]
    rfl
  · have hcomm : sizes.length * out_planes + s.c =
        inplanes + sizes.length * out_planes := by
      rw [hc]; ring
    rw [catChannelShapes_psp, hcomm]

/-- Witness for `psp_priors_channels` at the default configuration
`sizes = (1, 2, 3, 6)`, `out_planes = 512`, input `(1, 512, 4, 5)`. -/
theorem psp_priors_channels_witness :
    pspPriorShapes 512 512 [1, 2, 3, 6] ⟨1, 512, 4, 5⟩ =
      some (List.replicate 4 ⟨1, 512, 4, 5⟩ ++ [⟨1, 512, 4, 5⟩]) ∧
    catChannelShapes
        (List.replicate 4 ⟨1, 512, 4, 5⟩ ++ [⟨1, 512, 4, 5⟩]) =
      some ⟨1, 512 + 4 * 512, 4, 5⟩ ∧
    pspBottleneckCin 512 512 4 = 512 + 4 * 512 :=
  psp_priors_channels 512 512 [1, 2, 3, 6] ⟨1, 512, 4, 5⟩ rfl

/-- Claim C8: `PSPModule.forward` on input of shape `(n, inplanes, h, w)`
returns a tensor of spatial size `(h + 2, w + 2)`, not `(h, w)`: the 1x1
bottleneck convolution is constructed with `padding=1`, which grows each
spatial dimension by 2. -/
theorem pspForwardShape_pads (inplanes out_planes : Nat) (sizes : List Nat)
    (s : Shape) (hc : s.c = inplanes) :
    pspForwardShape inplanes out_planes sizes s =
      some ⟨s.n, out_planes, s.h + 2, s.w + 2⟩ ∧ s.h + 2 ≠ s.h := by
  constructor
  · obtain ⟨h1, h2, _⟩ := psp_priors_channels inplanes out_planes sizes s hc
    simp only [pspForwardShape, h1, Option.some_bind', h2]
    simp [pspBottleneckShape, pspBottleneckCin, conv2dShape,
      normLayerShape, reluShape, dropout2dShape, convOut]
  · omega

/-- Witness for `pspForwardShape_pads` at the default configuration:
input `(1, 512, 4, 5)` comes out as `(1, 512, 6, 7)`. -/
theorem pspForwardShape_pads_witness :
    pspForwardShape 512 512 [1, 2, 3, 6] ⟨1, 512, 4, 5⟩ =
      some ⟨1, 512, 6, 7⟩ ∧ (4 : Nat) + 2 ≠ 4 :=
  pspForwardShape_pads 512 512 [1, 2, 3, 6] ⟨1, 512, 4, 5⟩ rfl

/-! ## `init_bias_focal` (initializer.py lines 60-78).

The module is embedded as the flat list `module.modules()` yields, each
submodule either a `Conv2d` or `Linear` carrying a bias vector, or some
other layer the function skips.  Bias values live in an abstract type `V`
with the arithmetic the source uses supplied as `VOps`; the torch random
generator is an abstract state `R` threaded through every `normal_` draw
(`normalDraw mean std r` yields one sample and the advanced state). -/

inductive PLayer (V : Type) where
  | conv2d : List V → PLayer V
  | linear : List V → PLayer V
  | other : PLayer V
deriving DecidableEq, Repr

/-- The float operations `init_bias_focal` uses. -/
structure VOps (V : Type) where
  neg : V → V
  log : V → V
  exp : V → V
  sub : V → V → V
  mul : V → V → V
  div : V → V → V
  sum : List V → V
  one : V
  zero : V
  point01 : V

/-- `-math.log(1.0 / init_prior - 1.0)` (initializer.py lines 66-67). -/
def focalConst {V : Type} (ops : VOps V) (p : V) : V :=
  ops.neg (ops.log (ops.sub (ops.div ops.one p) ops.one))

/-- `t.normal_(mean, std)` on a tensor of `n` elements: one generator
draw per element, advancing the generator state. -/
def drawList {V R : Type} (normalDraw : V → V → R → V × R) (mean std : V) :
    Nat → R → List V × R
  | 0, r => ([], r)
  | n + 1, r =>
    let vr := normalDraw mean std r
    let rest := drawList normalDraw mean std n vr.2
    (vr.1 :: rest.1, rest.2)

/-- The `"sigmoid"` branch body for one bias vector (initializer.py
lines 66-67): `m.bias.data.normal_(-log(1/p - 1), p)` — kept, per the
source comment, only "to keep the torch random state" — then
`torch.nn.init.constant_(m.bias, -log(1/p - 1))`, which overwrites every
element with the constant. -/
def sigmoidBias {V R : Type} (ops : VOps V)
    (normalDraw : V → V → R → V × R) (p : V) (b : List V) (r : R) :
    List V × R :=
  let dr := drawList normalDraw (focalConst ops p) p b.length r
  (b.map fun _ => focalConst ops p, dr.2)

/-- Python `range(0, stop, step)` for `step ≥ 1` (`step = 0` raises
`ValueError` in Python; modelled as no iterations, unreachable for the
`num_classes ≥ 1` the callers pass). -/
def pyRangeStep (stop step : Nat) : List Nat :=
  if step = 0 then []
  else (List.range ((stop + step - 1) / step)).map (· * step)

/-- The `"softmax"` branch body for one bias vector (initializer.py
lines 72-76): `m.bias.data.normal_(0, 0.01)`, then for each
`i in range(0, shape[0], num_classes)`:
`fg = data[i+1 : i+1+num_classes-1]`, `mu = torch.exp(fg).sum()`,
`data[i] = math.log(mu * (1.0 - init_prior) / init_prior)`. -/
def softmaxBias {V R : Type} (ops : VOps V)
    (normalDraw : V → V → R → V × R) (p : V) (numClasses : Nat)
    (b : List V) (r : R) : List V × R :=
  let dr := drawList normalDraw ops.zero ops.point01 b.length r
  let b1 := (pyRangeStep b.length numClasses).foldl (fun bb i =>
    let fg := (bb.drop (i + 1)).take (numClasses - 1)
    let mu := ops.sum (fg.map ops.exp)
    bb.set i (ops.log (ops.div (ops.mul mu (ops.sub ops.one p)) p))) dr.1
  (b1, dr.2)

/-- Apply a per-bias update to one submodule: `Conv2d` and `Linear`
biases are updated, anything else is skipped (initializer.py line 64). -/
def focalLayer {V R : Type} (branch : List V → R → List V × R) :
    PLayer V → R → PLayer V × R
  | .conv2d b, r => let br := branch b r; (.conv2d br.1, br.2)
  | .linear b, r => let br := branch b r; (.linear br.1, br.2)
  | .other, r => (.other, r)

/-- The `for m in module.modules()` loop, threading the generator. -/
def focalModule {V R : Type} (branch : List V → R → List V × R) :
    List (PLayer V) → R → List (PLayer V) × R
  | [], r => ([], r)
  | m :: ms, r =>
    let mr := focalLayer branch m r
    let rest := focalModule branch ms mr.2
    (mr.1 :: rest.1, rest.2)

/-- `init_bias_focal(module, cls_loss_type, init_prior, num_classes)`
(initializer.py lines 60-78).  The result is the raised error, if any,
paired with the module and generator state when the call returns or
raises: the unrecognized-type branch raises before touching anything. -/
def init_bias_focal {V R : Type} (ops : VOps V)
    (normalDraw : V → V → R → V × R) (cls_loss_type : String)
    (init_prior : V) (num_classes : Nat) (module : List (PLayer V))
    (r : R) : Option String × (List (PLayer V) × R) :=
  if cls_loss_type = "sigmoid" then
    (none, focalModule (sigmoidBias ops normalDraw init_prior) module r)
  else if cls_loss_type = "softmax" then
    (none,
      focalModule (softmaxBias ops normalDraw init_prior num_classes)
        module r)
  else
    (some (cls_loss_type ++ " is not supported"), (module, r))

/-- The bias vector of a submodule (`other` layers have none). -/
def biasOf {V : Type} : PLayer V → List V
  | .conv2d b => b
  | .linear b => b
  | .other => []

/-- All bias elements of a module, in order. -/
def allBiases {V : Type} (ms : List (PLayer V)) : List V :=
  (ms.map biasOf).flatten

/-- Overwrite every bias element of a layer with a constant. -/
def fillLayer {V : Type} (c : V) : PLayer V → PLayer V
  | .conv2d b => .conv2d (b.map fun _ => c)
  | .linear b => .linear (b.map fun _ => c)
  | .other => .other

/-! ## Theorems about `init_bias_focal` -/

/-- The `"sigmoid"` branch replaces every module by its constant-filled
version, whatever the generator state. -/
theorem focalModule_sigmoid {V R : Type} (ops : VOps V)
    (normalDraw : V → V → R → V × R) (p : V)
    (module : List (PLayer V)) (r : R) :
    (focalModule (sigmoidBias ops normalDraw p) module r).1 =
      module.map (fillLayer (focalConst ops p)) := by
  induction module generalizing r with
  | nil => rfl
  | cons m ms ih =>
    cases m <;> simp [focalModule, focalLayer, sigmoidBias, fillLayer, ih]

/-- Filling every bias with a constant turns the bias element list into a
constant list of the same length. -/
theorem allBiases_fillLayer {V : Type} (c : V) (module : List (PLayer V)) :
    allBiases (module.map (fillLayer c)) =
      (allBiases module).map (fun _ => c) := by
  induction module with
  | nil => rfl
  | cons m ms ih =>
    cases m <;> simp [allBiases, fillLayer, biasOf, List.flatten] at ih ⊢ <;>
      exact ih

/-- Claim C5: `init_bias_focal` raises the "not supported"
`NotImplementedError`, naming the given string, exactly when
`cls_loss_type` is neither `"sigmoid"` nor `"softmax"`; the raise
happens before any parameter is touched, so the module (and generator)
state is unchanged on error. -/
theorem init_bias_focal_error {V R : Type} (ops : VOps V)
    (normalDraw : V → V → R → V × R) (t : String) (p : V) (nc : Nat)
    (module : List (PLayer V)) (r : R) :
    ((init_bias_focal ops normalDraw t p nc module r).1.isSome ↔
      t ≠ "sigmoid" ∧ t ≠ "softmax") ∧
    (t ≠ "sigmoid" → t ≠ "softmax" →
      init_bias_focal ops normalDraw t p nc module r =
        (some (t ++ " is not supported"), (module, r))) := by
  by_cases h1 : t = "sigmoid" <;> by_cases h2 : t = "softmax" <;>
    simp [init_bias_focal, h1, h2]

/-- Concrete value type and generator for evaluating the model: rational
biases, a `Nat` counter as generator state. -/
def ratOps : VOps ℚ :=
  { neg := fun x => -x, log := fun x => x, exp := fun x => x,
    sub := fun x y => x - y, mul := fun x y => x * y,
    div := fun x y => x / y, sum := fun l => l.sum,
    one := 1, zero := 0, point01 := 1 / 100 }

/-- A toy generator: each draw returns the counter and increments it. -/
def ratDraw (_mean _std : ℚ) (r : Nat) : ℚ × Nat := ((r : ℚ), r + 1)

/-- Witness for `init_bias_focal_error`: `cls_loss_type = "huber"` on a
one-conv module raises `"huber is not supported"` and leaves the module
and generator untouched. -/
theorem init_bias_focal_error_witness :
    ((init_bias_focal ratOps ratDraw ("huber") (1 / 100) 2
        [PLayer.conv2d [5, 7]] 0).1.isSome ↔
      "huber" ≠ "sigmoid" ∧ "huber" ≠ "softmax") ∧
    ("huber" ≠ "sigmoid" → "huber" ≠ "softmax" →
      init_bias_focal ratOps ratDraw ("huber") (1 / 100) 2
          [PLayer.conv2d [5, 7]] 0 =
        (some ("huber" ++ " is not supported"),
          ([PLayer.conv2d [5, 7]], 0))) :=
  init_bias_focal_error ratOps ratDraw ("huber") (1 / 100) 2
    [PLayer.conv2d [5, 7]] 0

/-- Claim C9: for `cls_loss_type = "sigmoid"`, `init_bias_focal` returns
without error and every bias element of every `Conv2d` and `Linear`
submodule equals the constant `-log(1.0 / init_prior - 1.0)`,
independently of the random generator state: the intermediate `normal_`
draw is entirely overwritten by the constant fill. -/
theorem init_bias_focal_sigmoid {V R : Type} (ops : VOps V)
    (normalDraw : V → V → R → V × R) (p : V) (nc : Nat)
    (module : List (PLayer V)) (r r' : R) :
    (init_bias_focal ops normalDraw ("sigmoid") p nc module r).1 = none ∧
    allBiases (init_bias_focal ops normalDraw ("sigmoid") p nc module r).2.1 =
      (allBiases module).map (fun _ => focalConst ops p) ∧
    (init_bias_focal ops normalDraw ("sigmoid") p nc module r).2.1 =
      (init_bias_focal ops normalDraw ("sigmoid") p nc module r').2.1 := by
  refine ⟨rfl, ?_, ?_⟩
  · show allBiases (focalModule (sigmoidBias ops normalDraw p) module r).1 = _
    rw [focalModule_sigmoid, allBiases_fillLayer]
  · show (focalModule (sigmoidBias ops normalDraw p) module r).1 =
      (focalModule (sigmoidBias ops normalDraw p) module r').1
    rw [focalModule_sigmoid, focalModule_sigmoid]

/-! ## `initialize_from_cfg` (initializer.py lines 93-100).

Python dicts are mutable objects: the model keeps a heap (`DStore`) of
dict objects and passes dict variables as indices into it, so that
`copy.deepcopy` (a fresh object) and the in-place `pop` are distinguished
from mutation of the object of the caller. -/

/-- Configuration values: numbers or strings. -/
inductive CVal where
  | num : ℚ → CVal
  | str : String → CVal
deriving DecidableEq, Repr

/-- A heap of dict objects; a dict-typed Python variable is an index. -/
abbrev DStore : Type := List (List (String × CVal))

/-- Dereference a dict variable. -/
def getDict (s : DStore) (ref : Nat) : List (String × CVal) :=
  List.getD s ref []

/-- Python `d[k]` lookup (first binding wins). -/
def lookupKey (d : List (String × CVal)) (k : String) : Option CVal :=
  (d.find? (fun kv => kv.1 == k)).map (·.2)

/-- Remove a key from a dict value. -/
def eraseKey (d : List (String × CVal)) (k : String) : List (String × CVal) :=
  d.filter (fun kv => kv.1 != k)

/-- Outcome of `initialize_from_cfg`: the raised error if any, the
initializer invocation `initialize(model, method, **cfg)` actually
performed if any (method and keyword arguments), and the heap after the
call. -/
structure IFCResult where
  error : Option String
  applied : Option (CVal × List (String × CVal))
  store : DStore

/-- `initialize_from_cfg(model, cfg)` (initializer.py lines 93-100):

    if cfg is None:
        initialize(model, "normal", std=0.01)
        return
    cfg = copy.deepcopy(cfg)
    method = cfg.pop("method")
    initialize(model, method, **cfg)

`copy.deepcopy` allocates a fresh dict object at the end of the heap and
rebinds the local `cfg` to it; `pop` mutates that fresh object and raises
`KeyError` when the key is absent, before `initialize` runs. -/
def initialize_from_cfg (s : DStore) (cfg : Option Nat) : IFCResult :=
  match cfg with
  | none =>
    { error := none,
      applied := some (.str ("normal"), [("std", .num (1 / 100))]),
      store := s }
  | some ref =>
    let s1 := s ++ [getDict s ref]
    let ref1 := List.length s
    match lookupKey (getDict s1 ref1) "method" with
    | none =>
      { error := some ("KeyError: method"), applied := none, store := s1 }
    | some m =>
      let s2 := s1.set ref1 (eraseKey (getDict s1 ref1) "method")
      { error := none, applied := some (m, getDict s2 ref1), store := s2 }

/-! ## The `to_adela` subcommand (to_adela.py). -/

/-- One `add_argument` call of an argparse subparser. -/
structure ArgSpec where
  name : String
  dest : String
  required : Bool
  argDefault : Option CVal
deriving DecidableEq, Repr

/-- `ToAdela.add_subparser` (to_adela.py lines 21-53): the arguments it
declares, in order (`required` defaults to `False` when not given;
`--serialize` is a `store_true` flag, default `False`, modelled as the
number 0). -/
def toAdelaArgs : List ArgSpec :=
  [⟨"--config", "config", true, none⟩,
   ⟨"--release_json", "release_json", false, some (.str ("release.json"))⟩,
   ⟨"--save_to", "save_to", false, none⟩,
   ⟨"--serialize", "serialize", false, some (.num 0)⟩,
   ⟨"--cfg_type", "cfg_type", false, some (.str ("up"))⟩,
   ⟨"--opts", "opts", false, none⟩]

/-- The externally visible steps of `main(args)` (to_adela.py
lines 56-63). -/
inductive AdelaStep where
  | loadYaml
  | sendInfo
  | toAdelaExport
deriving DecidableEq, Repr

/-- `main(args)` (to_adela.py lines 56-63): asserts
`os.path.exists(args.config)` first, and only then loads the yaml,
sends the usage info and runs the export. -/
def toAdelaMain (configExists : Bool) : Except String (List AdelaStep) :=
  if configExists then
    .ok [.loadYaml, .sendInfo, .toAdelaExport]
  else
    .error ("AssertionError")

/-! ## Theorems about `initialize_from_cfg` and `to_adela` -/

/-- The deep copy lands at the end of the heap. -/
theorem getDict_append_self (s : DStore) (d : List (String × CVal)) :
    getDict (s ++ [d]) (List.length s) = d := by
  simp [getDict, List.getD_append_right]

/-- `getD` after `set` at a different index. -/
theorem getD_set_ne {α : Type} (l : List α) (i j : Nat) (a d : α)
    (hij : i ≠ j) : (l.set i a).getD j d = l.getD j d := by
  simp [List.getD_eq_getElem?_getD, List.getElem?_set_ne hij]

/-- Claim C6: missing required configuration fields raise immediately.
`initialize_from_cfg` on a non-None cfg dict without a `"method"` key
raises a `KeyError` and applies no initializer method; the `to_adela`
subparser declares `--config` with `required=True`; and `main` fails its
existence assertion before loading anything when the config path does not
exist. -/
theorem cfg_validation_raises :
    (∀ (s : DStore) (ref : Nat),
      lookupKey (getDict s ref) "method" = none →
        (initialize_from_cfg s (some ref)).error = some ("KeyError: method") ∧
        (initialize_from_cfg s (some ref)).applied = none) ∧
    (toAdelaArgs.find? (fun a => a.dest == "config")).map ArgSpec.required =
      some true ∧
    toAdelaMain false = .error ("AssertionError") := by
  refine ⟨?_, by rfl, rfl⟩
  intro s ref h
  have hd : getDict (s ++ [getDict s ref]) (List.length s) =
      getDict s ref := getDict_append_self s (getDict s ref)
  simp only [initialize_from_cfg, hd, h]
  exact ⟨trivial, trivial⟩

/-- Witness for `cfg_validation_raises`: a one-dict heap whose dict has
only a `"std"` key. -/
theorem cfg_validation_raises_witness :
    (initialize_from_cfg [[("std", CVal.num 2)]] (some 0)).error =
      some ("KeyError: method") ∧
    (initialize_from_cfg [[("std", CVal.num 2)]] (some 0)).applied =
      none :=
  cfg_validation_raises.1 [[("std", CVal.num 2)]] 0 (by decide)

/-- Claim C10: `initialize_from_cfg` never mutates the cfg of the caller
dict: for every heap and every valid dict reference, the referenced dict
is unchanged after the call — `"method"` is popped only from the deep
copy. -/
theorem initialize_from_cfg_frame (s : DStore) (ref : Nat)
    (h : ref < List.length s) :
    getDict (initialize_from_cfg s (some ref)).store ref = getDict s ref := by
  have hne : List.length s ≠ ref := Nat.ne_of_gt h
  simp only [initialize_from_cfg]
  cases hl : lookupKey (getDict (s ++ [getDict s ref]) (List.length s))
      "method" with
  | none =>
    simp only [hl, getDict]
    exact List.getD_append s [getDict s ref] [] ref h
  | some m =>
    simp only [hl, getDict]
    rw [getD_set_ne _ _ _ _ _ hne]
    exact List.getD_append s [getDict s ref] [] ref h

/-- Witness for `initialize_from_cfg_frame`: the dict of the caller, with a
`"method"` key, is intact after the call even though the deep copy had
its `"method"` popped. -/
theorem initialize_from_cfg_frame_witness :
    getDict (initialize_from_cfg
        [[("method", CVal.str ("msra")), ("a", CVal.num 1)]] (some 0)).store 0 =
      getDict [[("method", CVal.str ("msra")), ("a", CVal.num 1)]] 0 :=
  initialize_from_cfg_frame [[("method", CVal.str ("msra")), ("a", CVal.num 1)]]
    0 (by decide)

end UP
